import Mathlib

/-!
# Verification of `kidney.py` (chronic kidney disease prediction form)

Shallow embedding of the validation, encoding and form-controller logic of
`src/kidney.py`, together with theorems settling the specification claims.

Modelling conventions:
* Python floats are modelled by `PyFloat`: an exact rational for finite
  values, plus `nan`, `inf` and `ninf`, with IEEE-style comparison
  behaviour (`nan` compares false against everything).  Finite values are
  exact rationals rather than binary doubles; for the decimal constants of
  the schema and the comparisons the code performs this is faithful.
* Python's built-in `float(str)` conversion is modelled by `parsePyFloat`:
  optional surrounding whitespace, an optional sign, then either
  `inf`/`infinity`/`nan` (case-insensitively) or a decimal mantissa with an
  optional exponent.  (Digit-group underscores and overflow-to-infinity of
  huge exponents are not modelled; no claim depends on them.)
* Streamlit side effects (`st.error`, `st.success`, `st.warning`, the title
  and the form) are modelled as an ordered trace of `OutMsg` values; the
  f-string messages of the source are modelled by constructors carrying the
  data interpolated into them.
* `dict` values are modelled by association lists with distinct keys;
  `d[k]` is `lookupKey d k`, a missing key (Python `KeyError`) is `none`.
-/

namespace Kidney

/-- A Python float value: an exact rational, NaN, or a signed infinity. -/
inductive PyFloat where
  | finite (q : ℚ)
  | nan
  | inf
  | ninf
deriving DecidableEq

/-- `v < r` for a Python float `v` and a finite rational bound `r`
(the comparison `val < min_val` of `validate_numeric_input`).
NaN compares false against everything. -/
def PyFloat.ltQ : PyFloat → ℚ → Bool
  | .finite q, r => decide (q < r)
  | .nan, _ => false
  | .inf, _ => false
  | .ninf, _ => true

/-- `v > r` for a Python float `v` and a finite rational bound `r`
(the comparison `val > max_val` of `validate_numeric_input`). -/
def PyFloat.gtQ : PyFloat → ℚ → Bool
  | .finite q, r => decide (r < q)
  | .nan, _ => false
  | .inf, _ => true
  | .ninf, _ => false

/-- Membership of a Python float in the closed interval `[lo, hi]` of real
numbers: only finite values can lie in an interval; NaN and the infinities
lie in none. -/
def PyFloat.inIcc : PyFloat → ℚ → ℚ → Bool
  | .finite q, lo, hi => decide (lo ≤ q) && decide (q ≤ hi)
  | _, _, _ => false

/-- Negation of a Python float (the effect of a leading `-` sign). -/
def PyFloat.neg : PyFloat → PyFloat
  | .finite q => .finite (-q)
  | .nan => .nan
  | .inf => .ninf
  | .ninf => .inf

/-- Numeric value of a digit character. -/
def digitVal (c : Char) : ℕ := c.toNat - 48

/-- Value of a digit string read in base 10. -/
def digitsVal (cs : List Char) : ℕ := cs.foldl (fun n c => 10 * n + digitVal c) 0

/-- ASCII lower-casing of a character list. -/
def lowerList (cs : List Char) : List Char := cs.map Char.toLower

/-- Exact value of the decimal literal with digit string of value `mant`,
`fracLen` digits after the point, and exponent `e`:
`mant / 10 ^ fracLen * 10 ^ e`. -/
def sciToRat (mant : ℕ) (fracLen : ℕ) (e : ℤ) : ℚ :=
  match e - (fracLen : ℤ) with
  | .ofNat k => mkRat (mant * 10 ^ k) 1
  | .negSucc k => mkRat mant (10 ^ (k + 1))

/-- Parses the exponent suffix of a float literal: either nothing, or
`e`/`E` followed by an optional sign and a nonempty digit string. -/
def parseExponent : List Char → Option ℤ
  | [] => some 0
  | c :: rest =>
    if c = 'e' ∨ c = 'E' then
      match rest with
      | '+' :: ds =>
        if ds ≠ [] ∧ ds.all Char.isDigit then some (digitsVal ds) else none
      | '-' :: ds =>
        if ds ≠ [] ∧ ds.all Char.isDigit then some (-(digitsVal ds : ℤ)) else none
      | ds =>
        if ds ≠ [] ∧ ds.all Char.isDigit then some (digitsVal ds) else none
    else none

/-- Parses the mantissa of a float literal: digits with an optional decimal
point, at least one digit in total.  Returns the digit-string value, the
number of digits after the point, and the remaining characters. -/
def parseMantissa (cs : List Char) : Option ((ℕ × ℕ) × List Char) :=
  let intPart := cs.takeWhile Char.isDigit
  let rest1 := cs.dropWhile Char.isDigit
  match rest1 with
  | '.' :: rest2 =>
    let fracPart := rest2.takeWhile Char.isDigit
    let rest3 := rest2.dropWhile Char.isDigit
    if intPart.isEmpty && fracPart.isEmpty then none
    else some ((digitsVal (intPart ++ fracPart), fracPart.length), rest3)
  | _ =>
    if intPart.isEmpty then none else some ((digitsVal intPart, 0), rest1)

/-- Parses an unsigned float literal: `inf`, `infinity` or `nan`
(case-insensitively), or a mantissa followed by an optional exponent. -/
def parseUnsigned (cs : List Char) : Option PyFloat :=
  if lowerList cs = "inf".data ∨ lowerList cs = "infinity".data then some .inf
  else if lowerList cs = "nan".data then some .nan
  else
    match parseMantissa cs with
    | none => none
    | some (m, rest) =>
      match parseExponent rest with
      | none => none
      | some e => some (.finite (sciToRat m.1 m.2 e))

/-- Model of Python's built-in `float(str)` conversion: strip surrounding
whitespace, an optional sign, then an unsigned float literal.  `none`
models a raised `ValueError`. -/
def parsePyFloat (s : String) : Option PyFloat :=
  let cs := ((s.data.dropWhile Char.isWhitespace).reverse.dropWhile Char.isWhitespace).reverse
  match cs with
  | '+' :: rest => parseUnsigned rest
  | '-' :: rest => (parseUnsigned rest).map PyFloat.neg
  | _ => parseUnsigned cs

/-- A validation error, carrying the data interpolated into the f-string
message the source shows via `st.error`:
* `missingField label` ↦ "Please fill in (label)"
* `notNumeric label` ↦ "(label) should be a numeric value"
* `outOfRange label lo hi` ↦ "(label) should be between (lo) and (hi)"
* `badOption label opts` ↦ "(label) should be one of: (comma-joined opts)" -/
inductive FieldError where
  | missingField (label : String)
  | notNumeric (label : String)
  | outOfRange (label : String) (lo hi : ℚ)
  | badOption (label : String) (opts : List String)
deriving DecidableEq

/-- A validated Python value stored in `valid_inputs`: a float, a string, or
Python's `None`. -/
inductive Value where
  | num (x : PyFloat)
  | str (s : String)
  | pyNone
deriving DecidableEq

/-- ASCII model of Python's `str.lower()` (the schema options and the claims
use ASCII strings only). -/
def lowerStr (s : String) : String := ⟨s.data.map Char.toLower⟩

/-- `validate_numeric_input(value, min_val, max_val, field_name)` from
`kidney.py`: parse `value` as a float (`ValueError` gives the "numeric
value" message), then reject values with `val < min_val or val > max_val`. -/
def validate_numeric_input (value : String) (min_val max_val : ℚ)
    (field_name : String) : Option PyFloat × Option FieldError :=
  match parsePyFloat value with
  | none => (none, some (.notNumeric field_name))
  | some val =>
    if val.ltQ min_val || val.gtQ max_val then
      (none, some (.outOfRange field_name min_val max_val))
    else (some val, none)

/-- `validate_categorical_input(value, valid_options, field_name)` from
`kidney.py`: accept exactly when `value.lower()` is in `valid_options`,
returning the lower-cased value. -/
def validate_categorical_input (value : String) (valid_options : List String)
    (field_name : String) : Option String × Option FieldError :=
  if lowerStr value ∈ valid_options then (some (lowerStr value), none)
  else (none, some (.badOption field_name valid_options))

/-- First-match lookup in an association list; models Python `dict`
indexing for the dictionaries of `kidney.py`, whose keys are distinct. -/
def lookupKey {α : Type} : List (String × α) → String → Option α
  | [], _ => none
  | (k, v) :: rest, a => if k = a then some v else lookupKey rest a

/-- The `categorical_encodings` table of `kidney.py`. -/
def categorical_encodings : List (String × List (String × ℚ)) :=
  [("red_blood_cells", [("normal", 1), ("abnormal", 0)]),
   ("pus_cell", [("normal", 1), ("abnormal", 0)]),
   ("pus_cell_clumps", [("present", 1), ("notpresent", 0)]),
   ("bacteria", [("present", 1), ("notpresent", 0)]),
   ("hypertension", [("yes", 1), ("no", 0)]),
   ("diabetes_mellitus", [("yes", 1), ("no", 0)]),
   ("coronary_artery_disease", [("yes", 1), ("no", 0)]),
   ("appetite", [("good", 1), ("poor", 0)]),
   ("pedal_edema", [("yes", 1), ("no", 0)]),
   ("anemia", [("yes", 1), ("no", 0)])]

/-- The validation rule of one schema field: numeric bounds or a
categorical option list, plus the display label. -/
inductive FieldInfo where
  | numeric (lo hi : ℚ) (label : String)
  | categorical (opts : List String) (label : String)
deriving DecidableEq

/-- Display label of a field. -/
def FieldInfo.label : FieldInfo → String
  | .numeric _ _ l => l
  | .categorical _ l => l

/-- The `input_categories` schema of `kidney.py`: categories in declaration
order, each an ordered association of field name to validation rule. -/
def input_categories : List (String × List (String × FieldInfo)) :=
  [("Demographic Data",
    [("age", .numeric 0 120 "Age"),
     ("blood_pressure", .numeric 50 200 "Blood Pressure (mm Hg)")]),
   ("Laboratory Results",
    [("specific_gravity", .numeric (mkRat 1005 1000) (mkRat 1025 1000) "Specific Gravity"),
     ("albumin", .numeric 0 5 "Albumin (g/dL)"),
     ("sugar", .numeric 0 5 "Sugar Level"),
     ("red_blood_cells", .categorical ["normal", "abnormal"] "Red Blood Cells"),
     ("pus_cell", .categorical ["normal", "abnormal"] "Pus Cell"),
     ("pus_cell_clumps", .categorical ["present", "notpresent"] "Pus Cell Clumps"),
     ("bacteria", .categorical ["present", "notpresent"] "Bacteria"),
     ("blood_glucose_random", .numeric 70 400 "Blood Glucose Random (mg/dL)"),
     ("blood_urea", .numeric 10 200 "Blood Urea (mg/dL)"),
     ("serum_creatinine", .numeric (mkRat 4 10) 15 "Serum Creatinine (mg/dL)"),
     ("sodium", .numeric 100 150 "Sodium (mEq/L)"),
     ("potassium", .numeric (mkRat 25 10) 7 "Potassium (mEq/L)"),
     ("hemoglobin", .numeric (mkRat 35 10) (mkRat 175 10) "Hemoglobin (g/dL)"),
     ("packed_cell_volume", .numeric 15 55 "Packed Cell Volume (%)"),
     ("white_blood_cell_count", .numeric 2000 30000 "White Blood Cell Count (/mm3)"),
     ("red_blood_cell_count", .numeric 2 8 "Red Blood Cell Count (millions/mm3)")]),
   ("Medical History",
    [("hypertension", .categorical ["yes", "no"] "Hypertension"),
     ("diabetes_mellitus", .categorical ["yes", "no"] "Diabetes Mellitus"),
     ("coronary_artery_disease", .categorical ["yes", "no"] "Coronary Artery Disease"),
     ("appetite", .categorical ["good", "poor"] "Appetite"),
     ("pedal_edema", .categorical ["yes", "no"] "Pedal Edema"),
     ("anemia", .categorical ["yes", "no"] "Anemia")])]

/-- `all_fields` of `main`: the schema flattened to one association of field
name to rule.  The source builds it with `dict.update`; since the field
names are distinct across categories this equals plain concatenation. -/
def all_fields : List (String × FieldInfo) :=
  (input_categories.map Prod.snd).flatten

/-- `input_fields` of `kidney.py`: the flat list of field names in schema
declaration order — the feature-vector order. -/
def input_fields : List String := all_fields.map Prod.fst

/-- `encode_input(field_name, value)` from `kidney.py`: fields with a
`categorical_encodings` entry are looked up there (a non-string or unknown
key raises `KeyError`, modelled by `none`); other fields are passed through
`float(value)`. -/
def encode_input (field_name : String) (value : Value) : Option PyFloat :=
  match lookupKey categorical_encodings field_name with
  | some enc =>
    match value with
    | .str s => (lookupKey enc s).map PyFloat.finite
    | _ => none
  | none =>
    match value with
    | .num x => some x
    | .str s => parsePyFloat s
    | .pyNone => none

/-- One iteration of the validation loop of `main` on a field with rule
`info` and raw widget value `value`: an empty value gives the
"Please fill in" error; otherwise the kind-appropriate validator runs and
its `(val, error)` pair is turned into the stored value or the reported
error, exactly as the `if error: ... else: valid_inputs[...] = val` of the
source does. -/
def fieldStep (info : FieldInfo) (value : String) : Except FieldError Value :=
  if value = "" then .error (.missingField info.label)
  else
    match info with
    | .numeric lo hi label =>
      match validate_numeric_input value lo hi label with
      | (_, some e) => .error e
      | (v, none) =>
        .ok (match v with
             | some x => .num x
             | none => .pyNone)
    | .categorical opts label =>
      match validate_categorical_input value opts label with
      | (_, some e) => .error e
      | (v, none) =>
        .ok (match v with
             | some s => .str s
             | none => .pyNone)

/-- The validation loop of `main` over the `input_values` association in
its iteration order: collects the reported errors in order and the
`valid_inputs` association in insertion order.  `none` models the uncaught
`KeyError` of `all_fields[field_name]` on a field name outside the schema
(unreachable from the form, which supplies exactly the schema fields). -/
def processFields : List (String × String) → Option (List FieldError × List (String × Value))
  | [] => some ([], [])
  | p :: rest =>
    match lookupKey all_fields p.1 with
    | none => none
    | some info =>
      match processFields rest with
      | none => none
      | some r =>
        match fieldStep info p.2 with
        | .error e => some (e :: r.1, r.2)
        | .ok val => some (r.1, (p.1, val) :: r.2)

/-- Left-to-right effectful map over `Option`, modelling a Python list
comprehension in which each element may raise. -/
def optionMapList {α β : Type} (g : α → Option β) : List α → Option (List β)
  | [] => some []
  | a :: l =>
    match g a, optionMapList g l with
    | some b, some bs => some (b :: bs)
    | _, _ => none

/-- The `input_array` comprehension of `main`:
`[encode_input(field, valid_inputs[field]) for field in input_fields]`.
`none` models a `KeyError` raised inside the comprehension. -/
def feature_vector (valid_inputs : List (String × Value)) : Option (List PyFloat) :=
  optionMapList (fun f => (lookupKey valid_inputs f).bind (encode_input f)) input_fields

/-- One rendered Streamlit output of `main`, in order of appearance:
`modelMissingError` is the `st.error` of `load_model`; `titleShown` stands
for the title/description block; `fieldError` is one `st.error` of the
validation loop; `predictionError msg` is the `st.error` of the
`except` clause, carrying the full "An error occurred during prediction:"
message; the two banners are the `st.success`/`st.error` results and
`disclaimer` the fixed `st.warning` notice. -/
inductive OutMsg where
  | modelMissingError
  | titleShown
  | fieldError (e : FieldError)
  | predictionError (msg : String)
  | notLikelyBanner
  | likelyBanner
  | disclaimer
deriving DecidableEq

/-- Observable outcome of one run of `main`: the ordered trace of rendered
outputs, whether the title/form were rendered, whether `model.predict` was
invoked, and whether an exception escaped `main`. -/
structure RunResult where
  trace : List OutMsg
  formRendered : Bool
  predictCalled : Bool
  crashed : Bool
deriving DecidableEq

/-- The `main()` of `kidney.py`, over one submission.  Parameters:
`model_loaded` is whether `load_model` returned a (truthy) model rather
than `None` after the missing-file message; `predict` is the external
classifier adapter (`Except.error` models a raised exception, `Except.ok`
the single label `prediction[0]`); `submitted` is the form-submit flag;
`input_values` is the raw widget-value association in iteration order.

The body follows the source line by line: an absent model shows the
`load_model` error and returns before the title and form; on submit every
field is validated and its error (if any) collected; if no field erred the
feature vector is built and the classifier called inside `try`, any
exception there being caught and shown as the generic prediction-error
message; label `1` renders the "NOT likely" success banner, any other
label the "likely" error banner, followed by the disclaimer warning.
The detail string of a `KeyError` caught while building the vector is
modelled by the fixed text "KeyError". -/
def main_run (model_loaded : Bool) (predict : List PyFloat → Except String Int)
    (submitted : Bool) (input_values : List (String × String)) : RunResult :=
  if model_loaded then
    if submitted then
      match processFields input_values with
      | none =>
        { trace := [.titleShown], formRendered := true,
          predictCalled := false, crashed := true }
      | some r =>
        let t : List OutMsg := .titleShown :: r.1.map OutMsg.fieldError
        if r.1.isEmpty then
          match feature_vector r.2 with
          | none =>
            { trace := t ++ [.predictionError ("An error occurred during prediction: " ++ "KeyError")],
              formRendered := true, predictCalled := false, crashed := false }
          | some input_array =>
            match predict input_array with
            | .error e =>
              { trace := t ++ [.predictionError ("An error occurred during prediction: " ++ e)],
                formRendered := true, predictCalled := true, crashed := false }
            | .ok label =>
              { trace := t ++ [(if label = 1 then OutMsg.notLikelyBanner else OutMsg.likelyBanner),
                               OutMsg.disclaimer],
                formRendered := true, predictCalled := true, crashed := false }
        else
          { trace := t, formRendered := true, predictCalled := false, crashed := false }
    else
      { trace := [.titleShown], formRendered := true, predictCalled := false, crashed := false }
  else
    { trace := [.modelMissingError], formRendered := false,
      predictCalled := false, crashed := false }

/-- A complete submission with mid-range valid values for all 24 fields, in
form (schema) order. -/
def sample_raw : List (String × String) :=
  [("age", "45"), ("blood_pressure", "80"), ("specific_gravity", "1.015"),
   ("albumin", "1"), ("sugar", "0"), ("red_blood_cells", "normal"),
   ("pus_cell", "normal"), ("pus_cell_clumps", "notpresent"),
   ("bacteria", "notpresent"), ("blood_glucose_random", "120"),
   ("blood_urea", "40"), ("serum_creatinine", "1.2"), ("sodium", "140"),
   ("potassium", "4.5"), ("hemoglobin", "14"), ("packed_cell_volume", "40"),
   ("white_blood_cell_count", "8000"), ("red_blood_cell_count", "5"),
   ("hypertension", "no"), ("diabetes_mellitus", "no"),
   ("coronary_artery_disease", "no"), ("appetite", "good"),
   ("pedal_edema", "no"), ("anemia", "no")]

/-- `sample_raw` with the raw value of one field replaced. -/
def raw_with (field value : String) : List (String × String) :=
  sample_raw.map (fun p => if p.1 = field then (p.1, value) else p)

/-- The error, if any, that the validation loop of `main` reports for one
raw field entry. -/
def errPart (p : String × String) : Option FieldError :=
  (lookupKey all_fields p.1).bind (fun info =>
    match fieldStep info p.2 with
    | .error e => some e
    | .ok _ => none)

/-- The `valid_inputs` entry, if any, that the validation loop of `main`
stores for one raw field entry. -/
def okPart (p : String × String) : Option (String × Value) :=
  (lookupKey all_fields p.1).bind (fun info =>
    match fieldStep info p.2 with
    | .error _ => none
    | .ok val => some (p.1, val))

/-! ## Association-list lookup lemmas -/

lemma lookupKey_mem {α : Type} {l : List (String × α)} {a : String} {b : α}
    (h : lookupKey l a = some b) : (a, b) ∈ l := by
  induction l with
  | nil => simp [lookupKey] at h
  | cons p rest ih =>
    obtain ⟨k, v⟩ := p
    simp only [lookupKey] at h
    split at h
    · next hk =>
      injection h with h
      subst hk; subst h
      exact List.mem_cons_self _ _
    · exact List.mem_cons_of_mem _ (ih h)

lemma lookupKey_mem_values {α : Type} {l : List (String × α)} {a : String} {b : α}
    (h : lookupKey l a = some b) : b ∈ l.map Prod.snd :=
  List.mem_map.mpr ⟨(a, b), lookupKey_mem h, rfl⟩

lemma lookupKey_isSome_of_mem_keys {α : Type} {l : List (String × α)} {a : String}
    (h : a ∈ l.map Prod.fst) : (lookupKey l a).isSome = true := by
  induction l with
  | nil => simp at h
  | cons p rest ih =>
    obtain ⟨k, v⟩ := p
    simp only [List.map_cons, List.mem_cons] at h
    simp only [lookupKey]
    split
    · rfl
    · next hk =>
      rcases h with h | h
      · exact absurd h.symm hk
      · exact ih h

lemma lookupKey_eq_none_iff {α : Type} {l : List (String × α)} {a : String} :
    lookupKey l a = none ↔ a ∉ l.map Prod.fst := by
  constructor
  · intro h hm
    have := lookupKey_isSome_of_mem_keys hm
    rw [h] at this
    simp at this
  · intro hm
    cases hl : lookupKey l a with
    | none => rfl
    | some b =>
      exact absurd (List.mem_map.mpr ⟨(a, b), lookupKey_mem hl, rfl⟩) hm

lemma lookupKey_eq_some_of_mem_nodup {α : Type} {l : List (String × α)} {a : String} {b : α}
    (hm : (a, b) ∈ l) (hn : (l.map Prod.fst).Nodup) : lookupKey l a = some b := by
  induction l with
  | nil => simp at hm
  | cons p rest ih =>
    obtain ⟨k, v⟩ := p
    simp only [List.map_cons, List.nodup_cons] at hn
    rcases List.mem_cons.mp hm with h | h
    · injection h with h1 h2
      subst h1; subst h2
      simp [lookupKey]
    · have hk : ¬(k = a) := by
        intro e
        subst e
        exact hn.1 (List.mem_map.mpr ⟨(k, b), h, rfl⟩)
      simp only [lookupKey, if_neg hk]
      exact ih h hn.2

lemma lookupKey_congr_perm {α : Type} {l l' : List (String × α)}
    (hp : l.Perm l') (hn : (l.map Prod.fst).Nodup) (a : String) :
    lookupKey l a = lookupKey l' a := by
  have hn' : (l'.map Prod.fst).Nodup := ((hp.map Prod.fst).nodup_iff).mp hn
  cases h : lookupKey l a with
  | some b =>
    exact (lookupKey_eq_some_of_mem_nodup (hp.mem_iff.mp (lookupKey_mem h)) hn').symm
  | none =>
    symm
    rw [lookupKey_eq_none_iff] at h ⊢
    intro hm
    exact h (((hp.map Prod.fst).mem_iff).mpr hm)

/-! ## Characterization of the validation loop -/

lemma okPart_fst {p : String × String} {q : String × Value}
    (h : okPart p = some q) : q.1 = p.1 := by
  unfold okPart at h
  cases hl : lookupKey all_fields p.1 with
  | none => rw [hl] at h; simp at h
  | some info =>
    rw [hl] at h
    simp only [Option.some_bind] at h
    cases hs : fieldStep info p.2 with
    | error e => rw [hs] at h; simp at h
    | ok val =>
      rw [hs] at h
      injection h with h
      subst h
      rfl

lemma processFields_some_keys : ∀ {raw : List (String × String)}
    {x : List FieldError × List (String × Value)}, processFields raw = some x →
    ∀ p ∈ raw, (lookupKey all_fields p.1).isSome = true := by
  intro raw
  induction raw with
  | nil => intro x _ p hp; simp at hp
  | cons p rest ih =>
    intro x h q hq
    simp only [processFields] at h
    cases hl : lookupKey all_fields p.1 with
    | none => rw [hl] at h; simp at h
    | some info =>
      rw [hl] at h
      cases hr : processFields rest with
      | none => rw [hr] at h; simp at h
      | some r =>
        rcases List.mem_cons.mp hq with hq | hq
        · subst hq; rw [hl]; rfl
        · exact ih hr q hq

lemma processFields_eq_filterMap : ∀ (raw : List (String × String)),
    (∀ p ∈ raw, (lookupKey all_fields p.1).isSome = true) →
    processFields raw = some (raw.filterMap errPart, raw.filterMap okPart) := by
  intro raw
  induction raw with
  | nil => intro _; rfl
  | cons p rest ih =>
    intro h
    obtain ⟨info, hinfo⟩ := Option.isSome_iff_exists.mp (h p (List.mem_cons_self _ _))
    have hrest := ih (fun q hq => h q (List.mem_cons_of_mem _ hq))
    simp only [processFields, hinfo, hrest, List.filterMap_cons, errPart, okPart,
      Option.some_bind]
    cases hs : fieldStep info p.2 <;> simp [hs]

lemma filterMap_okPart_keys_sublist : ∀ (raw : List (String × String)),
    ((raw.filterMap okPart).map Prod.fst).Sublist (raw.map Prod.fst) := by
  intro raw
  induction raw with
  | nil => simp
  | cons p rest ih =>
    rw [List.filterMap_cons]
    cases h : okPart p with
    | none =>
      simp only [List.map_cons]
      exact ih.cons _
    | some q =>
      simp only [List.map_cons, okPart_fst h]
      exact ih.cons₂ _

/-! ## `optionMapList` lemmas -/

lemma optionMapList_isSome {α β : Type} (g : α → Option β) :
    ∀ (l : List α), (∀ a ∈ l, (g a).isSome = true) →
    ∃ r, optionMapList g l = some r := by
  intro l
  induction l with
  | nil => exact fun _ => ⟨[], rfl⟩
  | cons a l ih =>
    intro h
    obtain ⟨b, hb⟩ := Option.isSome_iff_exists.mp (h a (List.mem_cons_self _ _))
    obtain ⟨r, hr⟩ := ih (fun x hx => h x (List.mem_cons_of_mem _ hx))
    exact ⟨b :: r, by simp [optionMapList, hb, hr]⟩

lemma optionMapList_length {α β : Type} (g : α → Option β) :
    ∀ (l : List α) (r : List β), optionMapList g l = some r → r.length = l.length := by
  intro l
  induction l with
  | nil =>
    intro r h
    injection h with h
    subst h
    rfl
  | cons a l ih =>
    intro r h
    simp only [optionMapList] at h
    cases hg : g a with
    | none => rw [hg] at h; simp at h
    | some b =>
      rw [hg] at h
      cases hr : optionMapList g l with
      | none => rw [hr] at h; simp at h
      | some bs =>
        rw [hr] at h
        injection h with h
        subst h
        simp [ih bs hr]

lemma optionMapList_congr {α β : Type} {g g' : α → Option β} :
    ∀ {l : List α}, (∀ a ∈ l, g a = g' a) → optionMapList g l = optionMapList g' l := by
  intro l
  induction l with
  | nil => intro _; rfl
  | cons a l ih =>
    intro h
    simp only [optionMapList, h a (List.mem_cons_self _ _),
      ih (fun x hx => h x (List.mem_cons_of_mem _ hx))]

/-! ## Validator and encoder lemmas -/

lemma validate_numeric_snd_none {value : String} {lo hi : ℚ} {label : String}
    (h : (validate_numeric_input value lo hi label).2 = none) :
    ∃ x, validate_numeric_input value lo hi label = (some x, none) := by
  unfold validate_numeric_input at h ⊢
  cases hp : parsePyFloat value with
  | none => rw [hp] at h; simp at h
  | some v =>
    rw [hp] at h
    dsimp only at h
    by_cases hc : (v.ltQ lo || v.gtQ hi) = true
    · rw [if_pos hc] at h; simp at h
    · exact ⟨v, if_neg hc⟩

/-- Every numeric schema field is absent from `categorical_encodings`. -/
lemma numeric_fields_not_encoded :
    ∀ p ∈ all_fields, (match p.2 with
      | FieldInfo.numeric _ _ _ => (lookupKey categorical_encodings p.1).isNone
      | FieldInfo.categorical _ _ => true) = true := by decide

/-- Every categorical schema field has a `categorical_encodings` entry
covering all its options. -/
lemma categorical_fields_encoded :
    ∀ p ∈ all_fields, (match p.2 with
      | FieldInfo.categorical opts _ =>
        match lookupKey categorical_encodings p.1 with
        | some enc => opts.all (fun o => (lookupKey enc o).isSome)
        | none => false
      | FieldInfo.numeric _ _ _ => true) = true := by decide

/-- A value accepted by the validation loop for a schema field always
encodes successfully. -/
lemma encode_ok {f : String} {info : FieldInfo} {v : String} {val : Value}
    (hf : lookupKey all_fields f = some info) (hs : fieldStep info v = .ok val) :
    (encode_input f val).isSome = true := by
  have hmem : (f, info) ∈ all_fields := lookupKey_mem hf
  unfold fieldStep at hs
  split at hs
  · exact absurd hs (by simp)
  · cases info with
    | numeric lo hi label =>
      have hne := numeric_fields_not_encoded (f, FieldInfo.numeric lo hi label) hmem
      simp only [Option.isNone_iff_eq_none] at hne
      dsimp only at hs
      have hv2 : (validate_numeric_input v lo hi label).2 = none := by
        rcases h2 : validate_numeric_input v lo hi label with ⟨v?, e?⟩
        rw [h2] at hs
        cases e? with
        | some e => simp at hs
        | none => rfl
      obtain ⟨x, hx⟩ := validate_numeric_snd_none hv2
      rw [hx] at hs
      dsimp only at hs
      injection hs with hs
      subst hs
      simp [encode_input, hne]
    | categorical opts label =>
      have hcat := categorical_fields_encoded (f, FieldInfo.categorical opts label) hmem
      dsimp only at hcat hs
      rcases hvc : validate_categorical_input v opts label with ⟨v?, e?⟩
      rw [hvc] at hs
      cases e? with
      | some e => simp at hs
      | none =>
        dsimp only at hs
        unfold validate_categorical_input at hvc
        split at hvc
        · next hvmem =>
          injection hvc with hv1 _
          subst hv1
          injection hs with hs
          subst hs
          cases hl : lookupKey categorical_encodings f with
          | none => rw [hl] at hcat; simp at hcat
          | some enc =>
            rw [hl] at hcat
            dsimp only at hcat
            have hsome := (List.all_eq_true.mp hcat) (lowerStr v) hvmem
            obtain ⟨n, hn⟩ := Option.isSome_iff_exists.mp hsome
            simp [encode_input, hl, hn]
        · injection hvc with _ h2
          exact Option.noConfusion h2

lemma input_fields_nodup : input_fields.Nodup := by decide

/-- If every field of a schema-complete submission validated, the feature
vector is built without exceptions. -/
lemma feature_vector_isSome {raw : List (String × String)}
    (hkeys : raw.map Prod.fst = input_fields)
    (herr : ∀ p ∈ raw, errPart p = none) :
    ∃ vec, feature_vector (raw.filterMap okPart) = some vec := by
  apply optionMapList_isSome
  intro f hf
  have hf' : f ∈ raw.map Prod.fst := by rw [hkeys]; exact hf
  obtain ⟨p, hp, hpf⟩ := List.mem_map.mp hf'
  have hsome : (lookupKey all_fields p.1).isSome = true := by
    rw [hpf]
    exact lookupKey_isSome_of_mem_keys hf
  obtain ⟨info, hinfo⟩ := Option.isSome_iff_exists.mp hsome
  have he := herr p hp
  unfold errPart at he
  rw [hinfo] at he
  simp only [Option.some_bind] at he
  cases hstep : fieldStep info p.2 with
  | error e => rw [hstep] at he; simp at he
  | ok val =>
    have hok : okPart p = some (p.1, val) := by
      unfold okPart
      rw [hinfo]
      simp only [Option.some_bind, hstep]
    have hmem : (f, val) ∈ raw.filterMap okPart := by
      rw [← hpf]
      exact List.mem_filterMap.mpr ⟨p, hp, hok⟩
    have hnodup : ((raw.filterMap okPart).map Prod.fst).Nodup := by
      apply List.Nodup.sublist (filterMap_okPart_keys_sublist raw)
      rw [hkeys]
      exact input_fields_nodup
    rw [lookupKey_eq_some_of_mem_nodup hmem hnodup]
    simp only [Option.some_bind]
    rw [hpf] at hinfo
    exact encode_ok hinfo hstep

/-! ## Shape lemmas for `main_run` -/

lemma main_run_not_crashed (predict : List PyFloat → Except String Int)
    (raw : List (String × String)) {r : List FieldError × List (String × Value)}
    (h : processFields raw = some r) :
    (main_run true predict true raw).crashed = false := by
  simp only [main_run, h, if_true]
  split
  · split
    · rfl
    · split <;> rfl
  · rfl

lemma predictCalled_inversion (predict : List PyFloat → Except String Int)
    (raw : List (String × String)) {es : List FieldError} {vs : List (String × Value)}
    (h : processFields raw = some (es, vs))
    (hc : (main_run true predict true raw).predictCalled = true) :
    es = [] ∧ ∃ vec, feature_vector vs = some vec := by
  simp only [main_run, h, if_true] at hc
  split at hc
  · next hemp =>
    refine ⟨List.isEmpty_iff.mp hemp, ?_⟩
    split at hc
    · simp at hc
    · next ia hia => exact ⟨ia, hia⟩
  · simp at hc

lemma main_run_predict_error (predict : List PyFloat → Except String Int)
    (raw : List (String × String)) {vs : List (String × Value)} {vec : List PyFloat}
    {e : String}
    (h : processFields raw = some ([], vs)) (hv : feature_vector vs = some vec)
    (hp : predict vec = .error e) :
    main_run true predict true raw =
      { trace := [OutMsg.titleShown,
          OutMsg.predictionError ("An error occurred during prediction: " ++ e)],
        formRendered := true, predictCalled := true, crashed := false } := by
  simp only [main_run, h, hv, hp, if_true, List.isEmpty_nil, List.map_nil,
    List.nil_append, List.cons_append]

lemma main_run_predict_ok (predict : List PyFloat → Except String Int)
    (raw : List (String × String)) {vs : List (String × Value)} {vec : List PyFloat}
    {label : Int}
    (h : processFields raw = some ([], vs)) (hv : feature_vector vs = some vec)
    (hp : predict vec = .ok label) :
    main_run true predict true raw =
      { trace := [OutMsg.titleShown,
          (if label = 1 then OutMsg.notLikelyBanner else OutMsg.likelyBanner),
          OutMsg.disclaimer],
        formRendered := true, predictCalled := true, crashed := false } := by
  simp only [main_run, h, hv, hp, if_true, List.isEmpty_nil, List.map_nil,
    List.nil_append, List.cons_append]

lemma predictCalled_of_feature_vector (predict : List PyFloat → Except String Int)
    (raw : List (String × String)) {vs : List (String × Value)} {vec : List PyFloat}
    (h : processFields raw = some ([], vs)) (hv : feature_vector vs = some vec) :
    (main_run true predict true raw).predictCalled = true := by
  cases hp : predict vec with
  | error e => rw [main_run_predict_error predict raw h hv hp]
  | ok label => rw [main_run_predict_ok predict raw h hv hp]

/-! ## Claim C2 -/

/-- C2 counterexample: the raw input "nan" parses (Python's
`float("nan")`), and `validate_numeric_input` returns it with no error for
the age bounds 0–120, although NaN lies in no closed interval `[min, max]`
— so acceptance is not equivalent to membership in `[min, max]`. -/
theorem validate_numeric_nan_counterexample :
    validate_numeric_input "nan" 0 120 "Age" = (some PyFloat.nan, none) ∧
    PyFloat.inIcc PyFloat.nan 0 120 = false := by
  exact ⟨by decide, rfl⟩

/-- C2 (amended): for every raw string, `validate_numeric_input` fails with
the "numeric value" error when parsing fails; a parsed value is returned
with no error exactly when it lies in the closed interval `[min, max]`,
with the sole exception of NaN: a parsed finite value is accepted exactly
when `min ≤ v ≤ max` holds (boundary values accepted, values beyond either
boundary get the "between" error), a parsed infinity of either sign — which
lies in no closed interval — is rejected with the "between" error, but a
parsed NaN is always accepted, because it compares neither below `min` nor
above `max`. -/
theorem validate_numeric_input_amended :
    ∀ (value : String) (lo hi : ℚ) (label : String),
      (parsePyFloat value = none →
        validate_numeric_input value lo hi label =
          (none, some (FieldError.notNumeric label))) ∧
      (∀ q : ℚ, parsePyFloat value = some (.finite q) →
        (lo ≤ q → q ≤ hi →
          validate_numeric_input value lo hi label = (some (.finite q), none)) ∧
        (q < lo ∨ hi < q →
          validate_numeric_input value lo hi label =
            (none, some (FieldError.outOfRange label lo hi)))) ∧
      (parsePyFloat value = some PyFloat.inf →
        validate_numeric_input value lo hi label =
          (none, some (FieldError.outOfRange label lo hi))) ∧
      (parsePyFloat value = some PyFloat.ninf →
        validate_numeric_input value lo hi label =
          (none, some (FieldError.outOfRange label lo hi))) ∧
      (parsePyFloat value = some PyFloat.nan →
        validate_numeric_input value lo hi label = (some PyFloat.nan, none)) := by
  intro value lo hi label
  refine ⟨?_, ?_, ?_, ?_, ?_⟩
  · intro hp
    unfold validate_numeric_input
    rw [hp]
  · intro q hp
    constructor
    · intro h1 h2
      unfold validate_numeric_input
      rw [hp]
      dsimp only
      have hc : ((PyFloat.finite q).ltQ lo || (PyFloat.finite q).gtQ hi) = false := by
        simp [PyFloat.ltQ, PyFloat.gtQ, not_lt.mpr h1, not_lt.mpr h2]
      rw [hc]
      simp
    · intro h
      unfold validate_numeric_input
      rw [hp]
      dsimp only
      have hc : ((PyFloat.finite q).ltQ lo || (PyFloat.finite q).gtQ hi) = true := by
        rcases h with h | h <;> simp [PyFloat.ltQ, PyFloat.gtQ, h]
      rw [hc]
      simp
  · intro hp
    unfold validate_numeric_input
    rw [hp]
    rfl
  · intro hp
    unfold validate_numeric_input
    rw [hp]
    rfl
  · intro hp
    unfold validate_numeric_input
    rw [hp]
    rfl

/-- Witness for C2 (amended) at the age field: the boundary value 120 is
accepted, the value 121 one unit beyond is rejected with the range error,
and a parsed infinity is rejected with the range error as well. -/
theorem validate_numeric_input_amended_witness :
    validate_numeric_input "120" 0 120 "Age" = (some (PyFloat.finite 120), none) ∧
    validate_numeric_input "121" 0 120 "Age" =
      (none, some (FieldError.outOfRange "Age" 0 120)) ∧
    validate_numeric_input "inf" 0 120 "Age" =
      (none, some (FieldError.outOfRange "Age" 0 120)) := by
  refine ⟨?_, ?_, ?_⟩
  · exact ((validate_numeric_input_amended "120" 0 120 "Age").2.1 120
      (by decide)).1 (by decide) (by decide)
  · exact ((validate_numeric_input_amended "121" 0 120 "Age").2.1 121
      (by decide)).2 (Or.inr (by decide))
  · exact (validate_numeric_input_amended "inf" 0 120 "Age").2.2.1 (by decide)

/-! ## Claim C10 -/

/-- C10: for every numeric bounds `lo ≤ hi` and label there is a non-empty
raw string — "nan" — that `validate_numeric_input` accepts, returning the
parsed value with no error, although that value lies in no closed interval:
the range check only rejects values comparing strictly below `min` or
strictly above `max`, and NaN satisfies neither comparison. -/
theorem validate_numeric_accepts_nan :
    ∀ (lo hi : ℚ) (label : String),
      ∃ value : String, value ≠ "" ∧ ∃ v : PyFloat,
        parsePyFloat value = some v ∧
        validate_numeric_input value lo hi label = (some v, none) ∧
        ∀ lo' hi' : ℚ, PyFloat.inIcc v lo' hi' = false := by
  intro lo hi label
  refine ⟨"nan", by decide, PyFloat.nan, by decide, ?_, fun _ _ => rfl⟩
  unfold validate_numeric_input
  have hp : parsePyFloat "nan" = some PyFloat.nan := by decide
  rw [hp]
  rfl

/-! ## Claim C3 -/

/-- Every categorical schema field's options are already lower-case. -/
lemma schema_options_lower :
    ∀ info ∈ all_fields.map Prod.snd, (match info with
      | FieldInfo.categorical opts _ => opts.all (fun o => lowerStr o == o)
      | FieldInfo.numeric _ _ _ => true) = true := by decide

/-- C3: for every categorical field of the schema,
`validate_categorical_input` accepts any case variant of each valid option
(returning the canonical lower-cased option with no error), and rejects
every string with no case-insensitive match in the option set with the
"should be one of" error carrying the option list. -/
theorem validate_categorical_case_insensitive :
    ∀ (f : String) (opts : List String) (label : String),
      lookupKey all_fields f = some (.categorical opts label) →
      ∀ value : String,
        (∀ o ∈ opts, lowerStr value = lowerStr o →
          validate_categorical_input value opts label = (some o, none)) ∧
        ((∀ o ∈ opts, lowerStr value ≠ lowerStr o) →
          validate_categorical_input value opts label =
            (none, some (FieldError.badOption label opts))) := by
  intro f opts label hf value
  have hmem : (FieldInfo.categorical opts label) ∈ all_fields.map Prod.snd :=
    lookupKey_mem_values hf
  have hlow : ∀ o ∈ opts, lowerStr o = o := by
    have h := schema_options_lower _ hmem
    dsimp only at h
    intro o ho
    exact eq_of_beq ((List.all_eq_true.mp h) o ho)
  constructor
  · intro o ho he
    have hcan : lowerStr value = o := by rw [he, hlow o ho]
    unfold validate_categorical_input
    rw [if_pos (hcan ▸ ho), hcan]
  · intro hne
    unfold validate_categorical_input
    rw [if_neg ?_]
    intro hm
    exact hne (lowerStr value) hm (by rw [hlow (lowerStr value) hm])

/-- Witness for C3 at the hypertension field: the case variant "YES" is
accepted as "yes", and "maybe" is rejected with the option-list error. -/
theorem validate_categorical_case_insensitive_witness :
    validate_categorical_input "YES" ["yes", "no"] "Hypertension" = (some "yes", none) ∧
    validate_categorical_input "maybe" ["yes", "no"] "Hypertension" =
      (none, some (FieldError.badOption "Hypertension" ["yes", "no"])) := by
  constructor
  · exact ((validate_categorical_case_insensitive "hypertension" ["yes", "no"]
      "Hypertension" (by decide)) "YES").1 "yes" (by decide) (by decide)
  · exact ((validate_categorical_case_insensitive "hypertension" ["yes", "no"]
      "Hypertension" (by decide)) "maybe").2 (by decide)

/-! ## Claim C4 -/

/-- Every categorical schema field's option list is exactly the key list of
its `categorical_encodings` entry. -/
lemma schema_encodings_match :
    ∀ p ∈ all_fields, (match p.2 with
      | FieldInfo.categorical opts _ =>
        match lookupKey categorical_encodings p.1 with
        | some enc => enc.map Prod.fst == opts
        | none => false
      | FieldInfo.numeric _ _ _ => true) = true := by decide

/-- Every `categorical_encodings` table entry has distinct keys and its
values are exactly `{1, 0}`. -/
lemma encodings_values_zero_one :
    ∀ enc ∈ categorical_encodings.map Prod.snd,
      (enc.map Prod.fst).Nodup ∧ (enc.map Prod.snd).Perm [1, 0] := by decide

/-- C4: every field with a `categorical_encodings` entry maps each key of
that entry to its integer (the entry's keys being exactly the field's valid
option set, its keys distinct, and its values exactly `{1, 0}`, so the
encoding is a bijection from the option set onto `{0, 1}`); in particular
hypertension maps "yes" to 1 and "no" to 0.  A field without an entry has
its numeric value returned unchanged. -/
theorem encode_input_spec :
    (∀ f enc, lookupKey categorical_encodings f = some enc →
      (enc.map Prod.fst).Nodup ∧ (enc.map Prod.snd).Perm [1, 0] ∧
      (∀ o n, lookupKey enc o = some n →
        encode_input f (.str o) = some (.finite n))) ∧
    (∀ f opts label, lookupKey all_fields f = some (.categorical opts label) →
      ∃ enc, lookupKey categorical_encodings f = some enc ∧
        enc.map Prod.fst = opts) ∧
    encode_input "hypertension" (.str "yes") = some (.finite 1) ∧
    encode_input "hypertension" (.str "no") = some (.finite 0) ∧
    (∀ f, lookupKey categorical_encodings f = none →
      ∀ x, encode_input f (.num x) = some x) := by
  refine ⟨?_, ?_, by decide, by decide, ?_⟩
  · intro f enc h
    obtain ⟨h1, h2⟩ := encodings_values_zero_one enc (lookupKey_mem_values h)
    refine ⟨h1, h2, ?_⟩
    intro o n ho
    unfold encode_input
    rw [h]
    dsimp only
    rw [ho]
    rfl
  · intro f opts label h
    have hmem : (f, FieldInfo.categorical opts label) ∈ all_fields := lookupKey_mem h
    have hsch := schema_encodings_match _ hmem
    dsimp only at hsch
    cases hl : lookupKey categorical_encodings f with
    | none => rw [hl] at hsch; simp at hsch
    | some enc =>
      rw [hl] at hsch
      dsimp only at hsch
      exact ⟨enc, rfl, eq_of_beq hsch⟩
  · intro f h x
    unfold encode_input
    rw [h]

/-- Witness for C4 at the bacteria field. -/
theorem encode_input_spec_witness :
    encode_input "bacteria" (Value.str "present") = some (PyFloat.finite 1) :=
  (encode_input_spec.1 "bacteria" [("present", 1), ("notpresent", 0)]
    (by decide)).2.2 "present" 1 (by decide)

/-! ## Claim C1 -/

/-- C1: the flat field list has exactly one entry per schema field — the 24
names below, in flattened declaration order — and the feature vector `main`
builds is `encode_input` mapped over exactly that list (so it has 24
entries in schema order), independent of the order in which the raw inputs
were supplied: submissions whose raw associations are permutations of each
other (with distinct field names) produce the same feature vector. -/
theorem feature_vector_order :
    input_fields = ["age", "blood_pressure", "specific_gravity", "albumin", "sugar",
      "red_blood_cells", "pus_cell", "pus_cell_clumps", "bacteria",
      "blood_glucose_random", "blood_urea", "serum_creatinine", "sodium",
      "potassium", "hemoglobin", "packed_cell_volume", "white_blood_cell_count",
      "red_blood_cell_count", "hypertension", "diabetes_mellitus",
      "coronary_artery_disease", "appetite", "pedal_edema", "anemia"] ∧
    (∀ vs vec, feature_vector vs = some vec → vec.length = 24) ∧
    (∀ raw raw' es vs es' vs',
      raw.Perm raw' → (raw.map Prod.fst).Nodup →
      processFields raw = some (es, vs) → processFields raw' = some (es', vs') →
      feature_vector vs = feature_vector vs') := by
  refine ⟨by decide, ?_, ?_⟩
  · intro vs vec h
    exact (optionMapList_length _ _ _ h).trans (by decide)
  · intro raw raw' es vs es' vs' hp hn h h'
    have heq := processFields_eq_filterMap raw (processFields_some_keys h)
    have heq' := processFields_eq_filterMap raw' (processFields_some_keys h')
    rw [heq] at h
    rw [heq'] at h'
    injection h with h
    injection h' with h'
    injection h with hes hvs
    injection h' with hes' hvs'
    subst hvs
    subst hvs'
    apply optionMapList_congr
    intro f _
    rw [lookupKey_congr_perm (hp.filterMap okPart)
      (List.Nodup.sublist (filterMap_okPart_keys_sublist raw) hn) f]

/-- Witness for C1: a two-field association and its transposition give the
same feature vector. -/
theorem feature_vector_order_witness :
    feature_vector [("age", Value.num (PyFloat.finite 45)), ("hypertension", Value.str "no")] =
      feature_vector [("hypertension", Value.str "no"), ("age", Value.num (PyFloat.finite 45))] :=
  feature_vector_order.2.2
    [("age", "45"), ("hypertension", "no")]
    [("hypertension", "no"), ("age", "45")]
    [] [("age", Value.num (PyFloat.finite 45)), ("hypertension", Value.str "no")]
    [] [("hypertension", Value.str "no"), ("age", Value.num (PyFloat.finite 45))]
    (List.Perm.swap _ _ _) (by decide) (by decide) (by decide)

/-! ## Claim C5 -/

/-- C5: on every submission carrying all 24 schema fields, the validation
loop evaluates every field without short-circuiting — the reported error
list is exactly the per-field errors collected across the whole raw
association, one per invalid field — and `model.predict` is invoked if and
only if that error list is empty. -/
theorem submission_collects_all_errors :
    ∀ (predict : List PyFloat → Except String Int) (raw : List (String × String)),
      raw.map Prod.fst = input_fields →
      ∃ es vs, processFields raw = some (es, vs) ∧
        es = raw.filterMap errPart ∧
        ((main_run true predict true raw).predictCalled = true ↔ es = []) := by
  intro predict raw hkeys
  have hsome : ∀ p ∈ raw, (lookupKey all_fields p.1).isSome = true := by
    intro p hp
    apply lookupKey_isSome_of_mem_keys
    have : p.1 ∈ input_fields := by
      rw [← hkeys]
      exact List.mem_map_of_mem _ hp
    exact this
  have hchar := processFields_eq_filterMap raw hsome
  refine ⟨raw.filterMap errPart, raw.filterMap okPart, hchar, rfl, ?_⟩
  constructor
  · intro hc
    exact (predictCalled_inversion predict raw hchar hc).1
  · intro hes
    rw [hes] at hchar
    obtain ⟨vec, hvec⟩ := feature_vector_isSome hkeys (List.filterMap_eq_nil_iff.mp hes)
    exact predictCalled_of_feature_vector predict raw hchar hvec

/-- Witness for C5: the all-valid sample submission reaches the classifier. -/
theorem submission_collects_all_errors_witness :
    (main_run true (fun _ => Except.ok 0) true sample_raw).predictCalled = true := by
  obtain ⟨es, vs, h1, h2, h3⟩ :=
    submission_collects_all_errors (fun _ => Except.ok 0) sample_raw (by decide)
  exact h3.mpr (h2.trans (by decide))

/-! ## Claim C6 -/

/-- C6: a blank raw value is rejected by the controller loop with the
"Please fill in" error before either validator runs — `fieldStep` on the
empty string returns the missing-field error for every field rule, numeric
or categorical, without consulting its bounds or options — and a
submission with (only) age blank reports exactly that one error and never
reaches `model.predict`, whatever the classifier would answer. -/
theorem blank_field_rejected_upfront :
    (∀ info : FieldInfo, fieldStep info "" = .error (.missingField info.label)) ∧
    (processFields (raw_with "age" "")).map Prod.fst =
      some [FieldError.missingField "Age"] ∧
    ∀ predict : List PyFloat → Except String Int,
      (main_run true predict true (raw_with "age" "")).predictCalled = false := by
  refine ⟨fun info => rfl, by decide, fun predict => ?_⟩
  rfl

/-! ## Claim C7 -/

/-- C7 counterexample: with the model artifact absent, `main` shows the
"Model file not found" error and blocks prediction, but — contrary to the
claim — the form (and title) is never rendered: `main` returns right after
`load_model` yields `None`, before any widget is created. -/
theorem model_missing_form_counterexample :
    (main_run false (fun _ => Except.ok 1) true sample_raw).formRendered = false ∧
    OutMsg.modelMissingError ∈ (main_run false (fun _ => Except.ok 1) true sample_raw).trace ∧
    (main_run false (fun _ => Except.ok 1) true sample_raw).predictCalled = false := by
  decide

/-- C7 (amended): when the model artifact is absent at startup, `main`
surfaces the visible "model not found" error, invokes no prediction and
lets no exception escape — but it returns immediately, so the form itself
does not render. -/
theorem model_missing_blocks_run :
    ∀ (predict : List PyFloat → Except String Int) (submitted : Bool)
      (raw : List (String × String)),
      main_run false predict submitted raw =
        { trace := [OutMsg.modelMissingError], formRendered := false,
          predictCalled := false, crashed := false } :=
  fun _ _ _ => rfl

/-! ## Claim C8 -/

/-- C8: any exception the classifier adapter raises during `predict` is
caught at the controller boundary — the run never crashes, and whenever the
call was made its failure is surfaced as the generic "An error occurred
during prediction" message (and nothing else is rendered after the title). -/
theorem prediction_failure_caught :
    ∀ (e : String) (raw : List (String × String)),
      raw.map Prod.fst = input_fields →
      (main_run true (fun _ => Except.error e) true raw).crashed = false ∧
      ((main_run true (fun _ => Except.error e) true raw).predictCalled = true →
        (main_run true (fun _ => Except.error e) true raw).trace =
          [OutMsg.titleShown,
           OutMsg.predictionError ("An error occurred during prediction: " ++ e)]) := by
  intro e raw hkeys
  have hsome : ∀ p ∈ raw, (lookupKey all_fields p.1).isSome = true := by
    intro p hp
    apply lookupKey_isSome_of_mem_keys
    have : p.1 ∈ input_fields := by
      rw [← hkeys]
      exact List.mem_map_of_mem _ hp
    exact this
  have hchar := processFields_eq_filterMap raw hsome
  constructor
  · exact main_run_not_crashed _ _ hchar
  · intro hc
    obtain ⟨hes, vec, hvec⟩ := predictCalled_inversion _ _ hchar hc
    rw [hes] at hchar
    rw [main_run_predict_error _ _ hchar hvec rfl]

/-- Witness for C8: a raised adapter error on the sample submission is
rendered as the generic prediction-error message. -/
theorem prediction_failure_caught_witness :
    (main_run true (fun _ => Except.error "boom") true sample_raw).trace =
      [OutMsg.titleShown,
       OutMsg.predictionError ("An error occurred during prediction: " ++ "boom")] :=
  (prediction_failure_caught "boom" sample_raw (by decide)).2 (by decide)

/-! ## Claim C9 -/

/-- C9: after a successful prediction, the "NOT likely" success banner is
rendered exactly when the returned label equals 1; every other label — not
only 0 — renders the "likely" error banner; and the fixed medical
disclaimer is rendered in either case. -/
theorem prediction_banner_polarity :
    ∀ (label : Int) (raw : List (String × String)),
      raw.map Prod.fst = input_fields →
      (main_run true (fun _ => Except.ok label) true raw).predictCalled = true →
      ((OutMsg.notLikelyBanner ∈ (main_run true (fun _ => Except.ok label) true raw).trace
          ↔ label = 1) ∧
       (label ≠ 1 →
          OutMsg.likelyBanner ∈ (main_run true (fun _ => Except.ok label) true raw).trace) ∧
       OutMsg.disclaimer ∈ (main_run true (fun _ => Except.ok label) true raw).trace) := by
  intro label raw hkeys hc
  have hsome : ∀ p ∈ raw, (lookupKey all_fields p.1).isSome = true := by
    intro p hp
    apply lookupKey_isSome_of_mem_keys
    have : p.1 ∈ input_fields := by
      rw [← hkeys]
      exact List.mem_map_of_mem _ hp
    exact this
  have hchar := processFields_eq_filterMap raw hsome
  obtain ⟨hes, vec, hvec⟩ := predictCalled_inversion _ _ hchar hc
  rw [hes] at hchar
  rw [main_run_predict_ok _ _ hchar hvec rfl]
  refine ⟨?_, ?_, by simp⟩
  · by_cases hl : label = 1 <;> simp [hl]
  · intro hl
    simp [hl]

/-- Witness for C9: label 2 (neither 1 nor 0) renders the "likely" banner,
and the "NOT likely" banner only appears for label 1. -/
theorem prediction_banner_polarity_witness :
    OutMsg.likelyBanner ∈ (main_run true (fun _ => Except.ok 2) true sample_raw).trace ∧
    OutMsg.disclaimer ∈ (main_run true (fun _ => Except.ok 2) true sample_raw).trace := by
  have h := prediction_banner_polarity 2 sample_raw (by decide) (by decide)
  exact ⟨h.2.1 (by decide), h.2.2⟩
